import Mathlib

/-!
Shallow embedding of the resource-optimization analysis engine of the
mcp-gke-monitor repository (Go packages `optimization` and `gke`).

Modelling conventions:
* Go `float64` values are modelled as exact rationals (`ℚ`).  The analysed
  code only adds, subtracts, multiplies, divides and compares; non-finite
  values (Inf/NaN) and rounding are outside the model.
* Go `string` values are modelled as `List Char`.  `strings.ToLower`,
  `strings.HasSuffix` and `strings.TrimSuffix` are embedded below
  (`goToLower`, `goHasSuffix`, `goTrimSuffix`).
* `strconv.ParseFloat` is modelled by `parseFloat`, covering the finite
  decimal syntax: optional sign, an integer and/or fraction part, and an
  optional decimal exponent.  Hexadecimal floats, the "inf"/"nan" tokens,
  underscore digit separators and overflow to infinity are outside the model.
* Go `int32` values (container restart counts, the health threshold) are
  modelled as `ℤ`; the analysed behaviour does not exercise 32-bit
  wraparound.
* Fields that only carry `fmt.Sprintf`-formatted display text (the
  suggestion/description messages, formatted percentage strings, the
  recommendation records) and timestamps are not modelled; numeric
  quantities that the source stores back as formatted strings
  (`TotalCPUWaste`, `TotalMemoryWaste`, `PotentialCPUSavings`,
  `PotentialMemorySavings`) are kept as their numeric value.
-/

namespace Mcp

/-- Go `strings.ToLower`, restricted to ASCII (the quantity strings involved
are ASCII).  `Char.toLower` maps `A`..`Z` to `a`..`z` and keeps every other
character, exactly as the ASCII case of the Go function. -/
def goToLower (s : List Char) : List Char :=
  s.map Char.toLower

/-- Go `strings.HasSuffix`. -/
def goHasSuffix (s sfx : List Char) : Bool :=
  decide ((s.reverse.take sfx.length).reverse = sfx)

/-- Go `strings.TrimSuffix`: removes the suffix when present, otherwise
returns the string unchanged. -/
def goTrimSuffix (s sfx : List Char) : List Char :=
  if goHasSuffix s sfx then s.take (s.length - sfx.length) else s

/-- Optional sign prefix of `strconv.ParseFloat`: a leading `+` or `-`.
Returns the sign (`1` or `-1`) and the remaining characters. -/
def parseSign (l : List Char) : Int × List Char :=
  match l with
  | [] => (1, [])
  | c :: rest => if c = '-' then (-1, rest) else if c = '+' then (1, rest) else (1, c :: rest)

/-- Digit recognition used by the `parseFloat` model (ASCII `0`-`9`). -/
def goIsDigit (c : Char) : Bool :=
  decide (48 ≤ c.toNat ∧ c.toNat ≤ 57)

/-- Value of a single decimal digit character (0 for non-digits; only applied
to digit characters). -/
def digitVal (c : Char) : ℕ :=
  if c = '0' then 0 else if c = '1' then 1 else if c = '2' then 2 else if c = '3' then 3
  else if c = '4' then 4 else if c = '5' then 5 else if c = '6' then 6 else if c = '7' then 7
  else if c = '8' then 8 else if c = '9' then 9 else 0

/-- Numeric value of a digit string, most significant digit first. -/
def digitsVal (l : List Char) : ℕ :=
  l.foldl (fun a c => 10 * a + digitVal c) 0

/-- Exponent part of `strconv.ParseFloat`, i.e. what follows `e`/`E`:
an optional sign and at least one digit, consuming the whole rest. -/
def parseExpPart (mant : ℚ) (l : List Char) : Option ℚ :=
  if (parseSign l).2.takeWhile goIsDigit ≠ [] ∧ (parseSign l).2.dropWhile goIsDigit = []
  then some (mant * (10 : ℚ) ^ ((parseSign l).1 * (digitsVal ((parseSign l).2.takeWhile goIsDigit) : ℤ)))
  else none

/-- What follows the fraction digits in `strconv.ParseFloat`: either the end
of the string (the mantissa value stands) or an `e`/`E` exponent part. -/
def parseFracTail (mant : ℚ) : List Char → Option ℚ
  | [] => some mant
  | e :: r5 => if e = 'e' ∨ e = 'E' then parseExpPart mant r5 else none

/-- What follows the integer-digit part in `strconv.ParseFloat`: either
nothing, a fraction part (with at least one digit overall), or an exponent;
`ip` is the already-consumed integer digit part. -/
def parseTail (sgn : ℤ) (ip : List Char) : List Char → Option ℚ
  | [] => if ip = [] then none else some ((sgn : ℚ) * (digitsVal ip : ℚ))
  | c :: r3 =>
    if c = '.' then
      if ip = [] ∧ r3.takeWhile goIsDigit = [] then none
      else parseFracTail ((sgn : ℚ) * ((digitsVal ip : ℚ) +
             (digitsVal (r3.takeWhile goIsDigit) : ℚ) / (10 : ℚ) ^ (r3.takeWhile goIsDigit).length))
             (r3.dropWhile goIsDigit)
    else if (c = 'e' ∨ c = 'E') ∧ ip ≠ [] then
      parseExpPart ((sgn : ℚ) * (digitsVal ip : ℚ)) r3
    else none

/-- Model of `strconv.ParseFloat` (finite decimal syntax; see the file
header for what is outside the model).  Returns `none` exactly when the
string is rejected. -/
def parseFloat (l : List Char) : Option ℚ :=
  parseTail (parseSign l).1 ((parseSign l).2.takeWhile goIsDigit)
    ((parseSign l).2.dropWhile goIsDigit)

/-- The fall-through chain of `parseResourceValue`: `A` is the result of the
`m` branch (when its suffix matched and its number parsed), `B` of the `mi`
branch, `C` of the `gi` branch (scaled by 1024), `D` the direct parse
result; a failed branch falls through to the next exactly as in the Go
code. -/
def prvBranches (A B C : Option ℚ) (D : ℚ) : ℚ :=
  match A with
  | some val => val
  | none =>
    match B with
    | some val => val
    | none =>
      match C with
      | some val => val * 1024
      | none => D

/-- `Service.parseResourceValue`: strips the `m`, `mi`, `gi` unit suffixes
after lowercasing; a branch whose numeric part fails to parse falls through
to the next check exactly as the Go code does, and every failure ends in 0. -/
def parseResourceValue (value : List Char) : ℚ :=
  if value = [] ∨ value = ['-'] then 0
  else
    prvBranches
      (if goHasSuffix (goToLower value) ['m']
       then parseFloat (goTrimSuffix (goToLower value) ['m']) else none)
      (if goHasSuffix (goToLower value) ['m', 'i']
       then parseFloat (goTrimSuffix (goToLower value) ['m', 'i']) else none)
      (if goHasSuffix (goToLower value) ['g', 'i']
       then parseFloat (goTrimSuffix (goToLower value) ['g', 'i']) else none)
      ((parseFloat (goToLower value)).getD 0)

/-- `gke.Container` (the `Image` and `Status` display fields are kept;
`Restart` is the container restart count). -/
structure Container where
  Name : List Char
  Image : List Char
  Status : List Char
  Ready : Bool
  Restart : ℤ
deriving DecidableEq

/-- `gke.Pod`.  The fields not read by the optimization engine
(`NodeName`, `PodIP`, `HostIP`, `Labels`, `CreatedAt`) are omitted. -/
structure Pod where
  Name : List Char
  Namespace : List Char
  Status : List Char
  Ready : Bool
  Containers : List Container
deriving DecidableEq

/-- `gke.CPUUsage` (quantity strings plus the unused `Percentage`). -/
structure CPUUsage where
  Current : List Char
  Percentage : ℚ
  Limit : List Char
  Request : List Char
deriving DecidableEq

/-- `gke.MemoryUsage`. -/
structure MemoryUsage where
  Current : List Char
  Percentage : ℚ
  Limit : List Char
  Request : List Char
deriving DecidableEq

/-- `gke.DiskUsage` (the `Volumes` map, not read by the engine, is omitted). -/
structure DiskUsage where
  Used : List Char
  Available : List Char
  Total : List Char
deriving DecidableEq

/-- `gke.ResourceUsage` (the timestamp and the per-container breakdown,
not read by the engine, are omitted). -/
structure ResourceUsage where
  PodName : List Char
  Namespace : List Char
  CPU : CPUUsage
  Memory : MemoryUsage
  Disk : DiskUsage
deriving DecidableEq

/-- `optimization.OptimizationCriteria`. -/
structure OptimizationCriteria where
  CPUThreshold : ℚ
  MemoryThreshold : ℚ
  HealthThreshold : ℤ
  IdleThreshold : ℚ
deriving DecidableEq

/-- The initial criteria set by `NewServiceWithLogger`. -/
def initialCriteria : OptimizationCriteria :=
  { CPUThreshold := 20, MemoryThreshold := 30, HealthThreshold := 5, IdleThreshold := 5 }

/-- `optimization.ResourceMetric` (the `Suggestion` display text is
omitted). -/
structure ResourceMetric where
  Current : List Char
  Request : List Char
  Limit : List Char
  Utilization : ℚ
  Status : List Char
deriving DecidableEq

/-- `optimization.ResourceAnalysis`. -/
structure ResourceAnalysis where
  CPU : ResourceMetric
  Memory : ResourceMetric
  Disk : ResourceMetric
deriving DecidableEq

/-- `optimization.HealthStatus` (the `LastRestart` timestamp, always left at
its zero value by the source, and the `HealthIssues` display strings are
omitted). -/
structure HealthStatus where
  Ready : Bool
  RestartCount : ℤ
  HealthScore : ℚ
deriving DecidableEq

/-- `optimization.OptimizationIssue` (the `Description` and `Suggestion`
display texts are omitted; the Go field `Type` is called `IssueType` here
because `Type` is reserved in Lean). -/
structure OptimizationIssue where
  IssueType : List Char
  Severity : List Char
deriving DecidableEq

/-- `optimization.PodOptimization`. -/
structure PodOptimization where
  PodName : List Char
  Namespace : List Char
  Status : List Char
  OptimizationScore : ℚ
  Issues : List OptimizationIssue
  ResourceAnalysis : ResourceAnalysis
  HealthStatus : HealthStatus
deriving DecidableEq

/-- `Service.calculateUtilization`. -/
def calculateUtilization (current limit : List Char) : ℚ :=
  if parseResourceValue limit = 0 then 0
  else (parseResourceValue current / parseResourceValue limit) * 100

/-- `Service.calculateDiskUtilization`. -/
def calculateDiskUtilization (used total : List Char) : ℚ :=
  if parseResourceValue total = 0 then 0
  else (parseResourceValue used / parseResourceValue total) * 100

/-- `Service.analyzeResourceMetric`: classification of one resource
dimension against the current criteria. -/
def analyzeResourceMetric (c : OptimizationCriteria)
    (current request limit resourceType : List Char) : ResourceMetric :=
  if limit ≠ [] ∧ current ≠ [] then
    { Current := current, Request := request, Limit := limit,
      Utilization := calculateUtilization current limit,
      Status :=
        if calculateUtilization current limit < c.IdleThreshold then "IDLE".data
        else if calculateUtilization current limit < c.CPUThreshold ∧ resourceType = "CPU".data then
          "OVER_PROVISIONED".data
        else if calculateUtilization current limit < c.MemoryThreshold ∧ resourceType = "MEMORY".data then
          "OVER_PROVISIONED".data
        else if calculateUtilization current limit > 80 then "UNDER_PROVISIONED".data
        else "OPTIMAL".data }
  else
    { Current := current, Request := request, Limit := limit,
      Utilization := 0, Status := "UNKNOWN".data }

/-- `Service.analyzeResourceUsage`: CPU and memory metrics through
`analyzeResourceMetric`, plus the simplified disk metric. -/
def analyzeResourceUsage (c : OptimizationCriteria) (usage : ResourceUsage) : ResourceAnalysis :=
  { CPU := analyzeResourceMetric c usage.CPU.Current usage.CPU.Request usage.CPU.Limit ("CPU".data),
    Memory := analyzeResourceMetric c usage.Memory.Current usage.Memory.Request usage.Memory.Limit ("MEMORY".data),
    Disk :=
      { Current := usage.Disk.Used, Request := ['-'], Limit := usage.Disk.Total,
        Utilization := calculateDiskUtilization usage.Disk.Used usage.Disk.Total,
        Status := "OPTIMAL".data } }

/-- The restart total accumulated by the loop in `analyzeHealthStatus`. -/
def totalRestartsOf (pod : Pod) : ℤ :=
  pod.Containers.foldl (fun a ct => a + ct.Restart) 0

/-- `Service.analyzeHealthStatus`: the 0-100 health score derived from
restart counts, pod readiness and pod status. -/
def analyzeHealthStatus (c : OptimizationCriteria) (pod : Pod) : HealthStatus :=
  { Ready := pod.Ready,
    RestartCount := totalRestartsOf pod,
    HealthScore :=
      if (100 - (if c.HealthThreshold < totalRestartsOf pod
                 then ((totalRestartsOf pod - c.HealthThreshold : ℤ) : ℚ) * 10 else 0)
              - (if pod.Ready then 0 else 30)
              - (if pod.Status = "Running".data then 0 else 40)) < 0
      then 0
      else 100 - (if c.HealthThreshold < totalRestartsOf pod
                  then ((totalRestartsOf pod - c.HealthThreshold : ℤ) : ℚ) * 10 else 0)
               - (if pod.Ready then 0 else 30)
               - (if pod.Status = "Running".data then 0 else 40) }

/-- `Service.identifyOptimizationIssues`: the Pod-level issue list, in the
order the Go code appends (CPU, memory, restarts, readiness). -/
def identifyOptimizationIssues (c : OptimizationCriteria) (ra : ResourceAnalysis)
    (hs : HealthStatus) (pod : Pod) : List OptimizationIssue :=
  (if ra.CPU.Status = "OVER_PROVISIONED".data then
     [{ IssueType := "CPU_OVER_PROVISIONED".data, Severity := "MEDIUM".data }]
   else if ra.CPU.Status = "UNDER_PROVISIONED".data then
     [{ IssueType := "CPU_UNDER_PROVISIONED".data, Severity := "HIGH".data }]
   else []) ++
  (if ra.Memory.Status = "OVER_PROVISIONED".data then
     [{ IssueType := "MEMORY_OVER_PROVISIONED".data, Severity := "MEDIUM".data }]
   else if ra.Memory.Status = "UNDER_PROVISIONED".data then
     [{ IssueType := "MEMORY_UNDER_PROVISIONED".data, Severity := "HIGH".data }]
   else []) ++
  (if c.HealthThreshold < hs.RestartCount then
     [{ IssueType := "HIGH_RESTART_COUNT".data, Severity := "HIGH".data }]
   else []) ++
  (if pod.Ready then [] else
     [{ IssueType := "POD_NOT_READY".data, Severity := "HIGH".data }])

/-- `Service.calculateOptimizationScore`: issue penalties averaged with the
health score, clamped below at 0.  The `ra` parameter is present (and
unread) in the Go signature as well. -/
def calculateOptimizationScore (ra : ResourceAnalysis) (hs : HealthStatus)
    (issues : List OptimizationIssue) : ℚ :=
  if (issues.foldl
        (fun s issue =>
          if issue.Severity = "HIGH".data then s - 20
          else if issue.Severity = "MEDIUM".data then s - 10
          else if issue.Severity = "LOW".data then s - 5
          else s) 100 + hs.HealthScore) / 2 < 0
  then 0
  else (issues.foldl
          (fun s issue =>
            if issue.Severity = "HIGH".data then s - 20
            else if issue.Severity = "MEDIUM".data then s - 10
            else if issue.Severity = "LOW".data then s - 5
            else s) 100 + hs.HealthScore) / 2

/-- The `gke.ResourceUsage` value that `analyzePod` builds when the metrics
fetch fails: only the pod identity (and the timestamp, not modelled) are
set, every quantity string is the empty string. -/
def emptyUsageFor (pod : Pod) : ResourceUsage :=
  { PodName := pod.Name, Namespace := pod.Namespace,
    CPU := { Current := [], Percentage := 0, Limit := [], Request := [] },
    Memory := { Current := [], Percentage := 0, Limit := [], Request := [] },
    Disk := { Used := [], Available := [], Total := [] } }

/-- Body of `Service.analyzePod`.  The fallible external metrics fetch
(`GetPodResourceUsage`) is passed in as `fetch`; on fetch error the Go code
substitutes `emptyUsageFor pod` and continues. -/
def analyzePodCore (c : OptimizationCriteria) (pod : Pod)
    (fetch : Except (List Char) ResourceUsage) : PodOptimization :=
  { PodName := pod.Name, Namespace := pod.Namespace, Status := pod.Status,
    OptimizationScore :=
      calculateOptimizationScore
        (analyzeResourceUsage c (match fetch with
          | Except.ok u => u
          | Except.error _ => emptyUsageFor pod))
        (analyzeHealthStatus c pod)
        (identifyOptimizationIssues c
          (analyzeResourceUsage c (match fetch with
            | Except.ok u => u
            | Except.error _ => emptyUsageFor pod))
          (analyzeHealthStatus c pod) pod),
    Issues :=
      identifyOptimizationIssues c
        (analyzeResourceUsage c (match fetch with
          | Except.ok u => u
          | Except.error _ => emptyUsageFor pod))
        (analyzeHealthStatus c pod) pod,
    ResourceAnalysis :=
      analyzeResourceUsage c (match fetch with
        | Except.ok u => u
        | Except.error _ => emptyUsageFor pod),
    HealthStatus := analyzeHealthStatus c pod }

/-- `Service.analyzePod`: declares an error return but always returns a
`nil` error in the source (every failure is recovered internally). -/
def analyzePod (c : OptimizationCriteria) (pod : Pod)
    (fetch : Except (List Char) ResourceUsage) : Except (List Char) PodOptimization :=
  Except.ok (analyzePodCore c pod fetch)

/-- `optimization.ResourceWaste` (the formatted `WasteAmount` string is
omitted; its numeric content equals `WastePercentage`). -/
structure ResourceWaste where
  PodName : List Char
  Namespace : List Char
  ResourceType : List Char
  Allocated : List Char
  Used : List Char
  WastePercentage : ℚ
deriving DecidableEq

/-- `optimization.WastageStats` (`TotalCPUWaste` and `TotalMemoryWaste` are
kept as their numeric values; the source formats them as strings; the
constant `EstimatedCost` text is omitted). -/
structure WastageStats where
  TotalCPUWaste : ℚ
  TotalMemoryWaste : ℚ
  WastePercentage : ℚ
deriving DecidableEq

/-- `optimization.ResourceWasteAnalysis`. -/
structure ResourceWasteAnalysis where
  OverProvisionedPods : List ResourceWaste
  UnderUtilizedPods : List ResourceWaste
  IdlePods : List (List Char)
  TotalWastage : WastageStats
deriving DecidableEq

/-- The accumulation loop of `analyzeResourceWaste`, in pod order: the
over-provisioned records (CPU record before memory record for each pod),
the idle pod names, the CPU waste total and the memory waste total. -/
def collectWaste (c : OptimizationCriteria) :
    List PodOptimization → List ResourceWaste × List (List Char) × ℚ × ℚ
  | [] => ([], [], 0, 0)
  | pa :: rest =>
    ((if pa.ResourceAnalysis.CPU.Status = "OVER_PROVISIONED".data then
        [{ PodName := pa.PodName, Namespace := pa.Namespace, ResourceType := "CPU".data,
           Allocated := pa.ResourceAnalysis.CPU.Limit, Used := pa.ResourceAnalysis.CPU.Current,
           WastePercentage := 100 - pa.ResourceAnalysis.CPU.Utilization }]
      else []) ++
     (if pa.ResourceAnalysis.Memory.Status = "OVER_PROVISIONED".data then
        [{ PodName := pa.PodName, Namespace := pa.Namespace, ResourceType := "MEMORY".data,
           Allocated := pa.ResourceAnalysis.Memory.Limit, Used := pa.ResourceAnalysis.Memory.Current,
           WastePercentage := 100 - pa.ResourceAnalysis.Memory.Utilization }]
      else []) ++ (collectWaste c rest).1,
     (if pa.ResourceAnalysis.CPU.Utilization < c.IdleThreshold ∧
         pa.ResourceAnalysis.Memory.Utilization < c.IdleThreshold then
        [pa.PodName] else []) ++ (collectWaste c rest).2.1,
     (if pa.ResourceAnalysis.CPU.Status = "OVER_PROVISIONED".data then
        100 - pa.ResourceAnalysis.CPU.Utilization else 0) + (collectWaste c rest).2.2.1,
     (if pa.ResourceAnalysis.Memory.Status = "OVER_PROVISIONED".data then
        100 - pa.ResourceAnalysis.Memory.Utilization else 0) + (collectWaste c rest).2.2.2)

/-- `Service.analyzeResourceWaste`: over-provisioned records, idle pods and
the aggregate wastage statistics (`UnderUtilizedPods` is never filled by
the source). -/
def analyzeResourceWaste (c : OptimizationCriteria)
    (podAnalyses : List PodOptimization) : ResourceWasteAnalysis :=
  { OverProvisionedPods := (collectWaste c podAnalyses).1,
    UnderUtilizedPods := [],
    IdlePods := (collectWaste c podAnalyses).2.1,
    TotalWastage :=
      { TotalCPUWaste := (collectWaste c podAnalyses).2.2.1,
        TotalMemoryWaste := (collectWaste c podAnalyses).2.2.2,
        WastePercentage :=
          if 0 < (collectWaste c podAnalyses).1.length then
            ((collectWaste c podAnalyses).2.2.1 + (collectWaste c podAnalyses).2.2.2)
              / (((collectWaste c podAnalyses).1.length : ℚ) * 2)
          else 0 } }

/-- `optimization.OptimizationSummary` (the savings fields are kept as
their numeric values; the source copies formatted strings). -/
structure OptimizationSummary where
  TotalPods : ℕ
  PodsNeedingOptimization : ℕ
  PotentialCPUSavings : ℚ
  PotentialMemorySavings : ℚ
  OverallScore : ℚ
deriving DecidableEq

/-- `Service.generateSummary`. -/
def generateSummary (podAnalyses : List PodOptimization)
    (resourceWaste : ResourceWasteAnalysis) : OptimizationSummary :=
  { TotalPods := podAnalyses.length,
    PodsNeedingOptimization := podAnalyses.countP (fun pa => decide (0 < pa.Issues.length)),
    PotentialCPUSavings := resourceWaste.TotalWastage.TotalCPUWaste,
    PotentialMemorySavings := resourceWaste.TotalWastage.TotalMemoryWaste,
    OverallScore :=
      if 0 < podAnalyses.length then
        (podAnalyses.foldl (fun a pa => a + pa.OptimizationScore) 0) / (podAnalyses.length : ℚ)
      else 0 }

/-- `optimization.OptimizationReport` (the generation timestamp and the
recommendation list, which no claim concerns, are omitted). -/
structure OptimizationReport where
  ClusterName : List Char
  Namespace : List Char
  Summary : OptimizationSummary
  PodAnalysis : List PodOptimization
  ResourceWaste : ResourceWasteAnalysis
deriving DecidableEq

/-- `Service.GenerateOptimizationReport`: each pod is analyzed (a pod whose
analysis returned an error would be skipped, matching the `continue` in the
loop), then waste analysis and summary are computed.  The external pod list
and the per-pod fetch results are passed in as `inputs`. -/
def generateOptimizationReport (c : OptimizationCriteria) (ns : List Char)
    (inputs : List (Pod × Except (List Char) ResourceUsage)) : OptimizationReport :=
  { ClusterName := "GKE-Cluster".data,
    Namespace := if ns = [] then "default".data else ns,
    Summary :=
      generateSummary
        (inputs.foldl (fun acc pf =>
          match analyzePod c pf.1 pf.2 with
          | Except.ok podOpt => acc ++ [podOpt]
          | Except.error _ => acc) [])
        (analyzeResourceWaste c
          (inputs.foldl (fun acc pf =>
            match analyzePod c pf.1 pf.2 with
            | Except.ok podOpt => acc ++ [podOpt]
            | Except.error _ => acc) [])),
    PodAnalysis :=
      inputs.foldl (fun acc pf =>
        match analyzePod c pf.1 pf.2 with
        | Except.ok podOpt => acc ++ [podOpt]
        | Except.error _ => acc) [],
    ResourceWaste :=
      analyzeResourceWaste c
        (inputs.foldl (fun acc pf =>
          match analyzePod c pf.1 pf.2 with
          | Except.ok podOpt => acc ++ [podOpt]
          | Except.error _ => acc) []) }

/-- The tool arguments of the `update_optimization_criteria` handler: each
of the four fields may be absent from the request. -/
structure UpdateCriteriaArgs where
  cpuThreshold : Option ℚ
  memoryThreshold : Option ℚ
  healthThreshold : Option ℚ
  idleThreshold : Option ℚ
deriving DecidableEq

/-- Go `int32(f)` conversion for in-range values: truncation toward zero
(`Int.tdiv` truncates toward zero like Go integer conversion). -/
def goTruncToInt (q : ℚ) : ℤ :=
  Int.tdiv q.num (q.den : ℤ)

/-- `Handler.UpdateOptimizationCriteria`: every supplied field takes the
supplied value (the health threshold is converted to an integer), every
absent field falls back to the previous criteria value. -/
def handlerUpdateCriteria (prev : OptimizationCriteria)
    (args : UpdateCriteriaArgs) : OptimizationCriteria :=
  { CPUThreshold :=
      match args.cpuThreshold with
      | some v => v
      | none => prev.CPUThreshold,
    MemoryThreshold :=
      match args.memoryThreshold with
      | some v => v
      | none => prev.MemoryThreshold,
    HealthThreshold :=
      match args.healthThreshold with
      | some v => goTruncToInt v
      | none => prev.HealthThreshold,
    IdleThreshold :=
      match args.idleThreshold with
      | some v => v
      | none => prev.IdleThreshold }

/-! ### Character-level facts about the ASCII lowercase map -/

theorem char_toNat_ofNat_of_lt (n : ℕ) (h : n < 55296) : (Char.ofNat n).toNat = n := by
  unfold Char.ofNat
  rw [dif_pos (Or.inl h)]
  rfl

theorem toLower_toNat_upper (c : Char) (h1 : 65 ≤ c.toNat) (h2 : c.toNat ≤ 90) :
    (Char.toLower c).toNat = c.toNat + 32 := by
  unfold Char.toLower
  rw [if_pos ⟨h1, h2⟩]
  exact char_toNat_ofNat_of_lt _ (by omega)

theorem toLower_eq_self_of_not_upper (c : Char) (h : ¬(65 ≤ c.toNat ∧ c.toNat ≤ 90)) :
    Char.toLower c = c := by
  unfold Char.toLower
  rw [if_neg h]

theorem toLower_toLower (c : Char) : Char.toLower (Char.toLower c) = Char.toLower c := by
  by_cases h : 65 ≤ c.toNat ∧ c.toNat ≤ 90
  · have hn := toLower_toNat_upper c h.1 h.2
    apply toLower_eq_self_of_not_upper
    omega
  · rw [toLower_eq_self_of_not_upper c h, toLower_eq_self_of_not_upper c h]

theorem toLower_ne_dash (c : Char) (h : c ≠ '-') : Char.toLower c ≠ '-' := by
  by_cases hu : 65 ≤ c.toNat ∧ c.toNat ≤ 90
  · have hn := toLower_toNat_upper c hu.1 hu.2
    intro he
    rw [he] at hn
    have h45 : ('-').toNat = 45 := rfl
    omega
  · rw [toLower_eq_self_of_not_upper c hu]
    exact h

theorem toLower_eq_dash_iff (c : Char) : Char.toLower c = '-' ↔ c = '-' := by
  constructor
  · intro h
    by_contra hne
    exact toLower_ne_dash c hne h
  · intro h
    subst h
    decide

theorem goToLower_idem (s : List Char) : goToLower (goToLower s) = goToLower s := by
  simp only [goToLower, List.map_map]
  exact List.map_congr_left fun c _ => toLower_toLower c

theorem goToLower_nil_iff (s : List Char) : goToLower s = [] ↔ s = [] := by
  simp [goToLower]

theorem goToLower_dash_iff (s : List Char) : goToLower s = ['-'] ↔ s = ['-'] := by
  cases s with
  | nil => simp [goToLower]
  | cons c rest => simp [goToLower, toLower_eq_dash_iff]

/-! ### Facts about the `parseFloat` model -/

theorem parseSign_fst_one (l : List Char) (h : l.head? ≠ some '-') : (parseSign l).1 = 1 := by
  cases l with
  | nil => rfl
  | cons c rest =>
    have hc : c ≠ '-' := by simpa using h
    simp only [parseSign, if_neg hc]
    split_ifs <;> rfl

theorem parseExpPart_nonneg (m : ℚ) (l : List Char) (hm : 0 ≤ m) (q : ℚ)
    (h : parseExpPart m l = some q) : 0 ≤ q := by
  unfold parseExpPart at h
  split_ifs at h with hc
  cases Option.some.inj h
  exact mul_nonneg hm (zpow_pos (by norm_num : (0:ℚ) < 10) _).le

theorem parseFracTail_nonneg (m : ℚ) (l : List Char) (hm : 0 ≤ m) (q : ℚ)
    (h : parseFracTail m l = some q) : 0 ≤ q := by
  cases l with
  | nil =>
    simp only [parseFracTail] at h
    rw [← Option.some.inj h]
    exact hm
  | cons e r5 =>
    simp only [parseFracTail] at h
    split_ifs at h with he
    exact parseExpPart_nonneg _ _ hm _ h

theorem parseTail_nonneg (ip r : List Char) (q : ℚ)
    (h : parseTail 1 ip r = some q) : 0 ≤ q := by
  cases r with
  | nil =>
    simp only [parseTail] at h
    split_ifs at h
    rw [← Option.some.inj h]
    positivity
  | cons c r3 =>
    simp only [parseTail] at h
    split_ifs at h with hdot hguard hexp
    · refine parseFracTail_nonneg _ _ ?_ _ h
      positivity
    · refine parseExpPart_nonneg _ _ ?_ _ h
      positivity

theorem parseFloat_nonneg (l : List Char) (h : l.head? ≠ some '-') (q : ℚ)
    (hq : parseFloat l = some q) : 0 ≤ q := by
  unfold parseFloat at hq
  rw [parseSign_fst_one l h] at hq
  exact parseTail_nonneg _ _ q hq

theorem head?_goToLower_ne_dash (s : List Char) (h : s.head? ≠ some '-') :
    (goToLower s).head? ≠ some '-' := by
  cases s with
  | nil => simp [goToLower]
  | cons c rest =>
    have hc : c ≠ '-' := by simpa using h
    simp only [goToLower, List.map_cons, List.head?_cons, ne_eq, Option.some.injEq]
    exact toLower_ne_dash c hc

theorem head?_take_cases (l : List Char) (n : ℕ) :
    (l.take n).head? = none ∨ (l.take n).head? = l.head? := by
  cases l <;> cases n <;> simp

theorem head?_goTrimSuffix_ne_dash (v sfx : List Char) (h : v.head? ≠ some '-') :
    (goTrimSuffix v sfx).head? ≠ some '-' := by
  unfold goTrimSuffix
  split_ifs
  · rcases head?_take_cases v (v.length - sfx.length) with h1 | h1 <;> rw [h1]
    · simp
    · exact h
  · exact h

/-- Nonnegativity of the branch chain of `parseResourceValue`, given that
every successful parse in it is nonnegative. -/
theorem prvBranches_nonneg (A B C : Option ℚ) (D : ℚ)
    (hA : ∀ q, A = some q → 0 ≤ q) (hB : ∀ q, B = some q → 0 ≤ q)
    (hC : ∀ q, C = some q → 0 ≤ q) (hD : 0 ≤ D) :
    0 ≤ prvBranches A B C D := by
  cases A with
  | some a => exact hA a rfl
  | none =>
    cases B with
    | some b => exact hB b rfl
    | none =>
      cases C with
      | some q => exact mul_nonneg (hC q rfl) (by norm_num)
      | none => exact hD

/-- Nonnegativity of the parser on strings without a leading minus sign. -/
theorem parseResourceValue_nonneg_core (s : List Char) (h : s.head? ≠ some '-') :
    0 ≤ parseResourceValue s := by
  have hv : (goToLower s).head? ≠ some '-' := head?_goToLower_ne_dash s h
  have hD : 0 ≤ (parseFloat (goToLower s)).getD 0 := by
    cases hm4 : parseFloat (goToLower s) with
    | some q => simpa using parseFloat_nonneg _ hv q hm4
    | none => simp
  have hTrim : ∀ (sfx : List Char) (q : ℚ),
      parseFloat (goTrimSuffix (goToLower s) sfx) = some q → 0 ≤ q :=
    fun sfx q hq => parseFloat_nonneg _ (head?_goTrimSuffix_ne_dash _ _ hv) q hq
  have hNone : ∀ q : ℚ, (none : Option ℚ) = some q → 0 ≤ q := fun q hq => by cases hq
  unfold parseResourceValue
  split_ifs with h0
  · exact le_refl 0
  all_goals refine prvBranches_nonneg _ _ _ _ ?_ ?_ ?_ hD
  all_goals first
    | exact hNone
    | exact hTrim _

/-- C2 counterexample: the quantity string "-5" parses to the negative value
-5, refuting "parse(q) is greater than or equal to 0 for every q". -/
theorem c2_parse_negative_counterexample : parseResourceValue ('-' :: ['5']) < 0 := by
  norm_num +decide [parseResourceValue, prvBranches, parseFloat, parseTail, parseFracTail, parseExpPart,
    parseSign, goHasSuffix, goToLower, goTrimSuffix, digitsVal, digitVal, goIsDigit]

/-- C2 (amended): `parseResourceValue` is nonnegative on every quantity
string that does not begin with a minus sign; a leading minus can produce a
negative value (see the counterexample). -/
theorem c2_parse_nonneg_amended (s : List Char) (h : s.head? ≠ some '-') :
    0 ≤ parseResourceValue s :=
  parseResourceValue_nonneg_core s h

/-- Witness for C2 (amended) at the concrete input "150m". -/
theorem c2_parse_nonneg_amended_witness : 0 ≤ parseResourceValue ('1' :: ['5', '0', 'm']) :=
  c2_parse_nonneg_amended ('1' :: ['5', '0', 'm']) (by decide)

/-- C1 (amended): the classification of `analyzeResourceMetric` is UNKNOWN
exactly when the limit string or the current string is empty; a non-empty
unparsable string instead yields utilization 0 and a threshold-based
classification.  (The analyzer is a total function, hence never crashes.) -/
theorem c1_unknown_iff_empty_amended (c : OptimizationCriteria)
    (current request limit resourceType : List Char) :
    (analyzeResourceMetric c current request limit resourceType).Status = "UNKNOWN".data
      ↔ (limit = [] ∨ current = []) := by
  unfold analyzeResourceMetric
  split_ifs with hcond h1 h2 h3 h4
  · exact ⟨fun hst => absurd (show ("IDLE".data : List Char) = "UNKNOWN".data from hst)
      (by decide), fun hor => (hor.elim hcond.1 hcond.2).elim⟩
  · exact ⟨fun hst => absurd (show ("OVER_PROVISIONED".data : List Char) = "UNKNOWN".data from hst)
      (by decide), fun hor => (hor.elim hcond.1 hcond.2).elim⟩
  · exact ⟨fun hst => absurd (show ("OVER_PROVISIONED".data : List Char) = "UNKNOWN".data from hst)
      (by decide), fun hor => (hor.elim hcond.1 hcond.2).elim⟩
  · exact ⟨fun hst => absurd (show ("UNDER_PROVISIONED".data : List Char) = "UNKNOWN".data from hst)
      (by decide), fun hor => (hor.elim hcond.1 hcond.2).elim⟩
  · exact ⟨fun hst => absurd (show ("OPTIMAL".data : List Char) = "UNKNOWN".data from hst)
      (by decide), fun hor => (hor.elim hcond.1 hcond.2).elim⟩
  · refine ⟨fun _ => ?_, fun _ => rfl⟩
    rcases not_and_or.1 hcond with hh | hh
    · exact Or.inl (not_not.1 hh)
    · exact Or.inr (not_not.1 hh)

/-- Witness for C1 (amended): both directions at concrete inputs. -/
theorem c1_unknown_iff_empty_amended_witness :
    (analyzeResourceMetric initialCriteria [] [] [] ('C' :: ['P', 'U'])).Status = "UNKNOWN".data :=
  (c1_unknown_iff_empty_amended initialCriteria [] [] [] ('C' :: ['P', 'U'])).2 (Or.inl rfl)

/-- C1 counterexample: with the initial criteria, a dimension whose current
and limit strings are non-empty but unparsable ("abc" and "xyz") is
classified IDLE, not UNKNOWN, refuting "UNKNOWN whenever the limit or
current value is unparsable". -/
theorem c1_unparsable_not_unknown_counterexample :
    (analyzeResourceMetric initialCriteria ('a' :: ['b', 'c']) ['-'] ('x' :: ['y', 'z'])
        ('C' :: ['P', 'U'])).Status = "IDLE".data ∧
    parseFloat ('a' :: ['b', 'c']) = none ∧ parseFloat ('x' :: ['y', 'z']) = none ∧
    ("IDLE".data : List Char) ≠ "UNKNOWN".data := by
  refine ⟨?_, by decide, by decide, by decide⟩
  norm_num +decide [analyzeResourceMetric, calculateUtilization, parseResourceValue,
    prvBranches, parseFloat, parseTail, parseFracTail, parseExpPart, parseSign, goHasSuffix, goToLower,
    goTrimSuffix, digitsVal, digitVal, goIsDigit, initialCriteria]

/-! ### The parser claims C7 and C10 -/

theorem parseResourceValue_toLower (s : List Char) :
    parseResourceValue (goToLower s) = parseResourceValue s := by
  unfold parseResourceValue
  rw [goToLower_idem]
  by_cases h0 : s = [] ∨ s = ['-']
  · have h1 : goToLower s = [] ∨ goToLower s = ['-'] := by
      rcases h0 with rfl | rfl
      · exact Or.inl rfl
      · exact Or.inr (by decide)
    rw [if_pos h0, if_pos h1]
  · have h1 : ¬(goToLower s = [] ∨ goToLower s = ['-']) := by
      rw [goToLower_nil_iff, goToLower_dash_iff]
      exact h0
    rw [if_neg h0, if_neg h1]

theorem parseResourceValue_raw (s : List Char) (q : ℚ)
    (hm : goHasSuffix (goToLower s) ['m'] = false)
    (hmi : goHasSuffix (goToLower s) ['m', 'i'] = false)
    (hgi : goHasSuffix (goToLower s) ['g', 'i'] = false)
    (hq : parseFloat (goToLower s) = some q) :
    parseResourceValue s = q := by
  have h0 : ¬(s = [] ∨ s = ['-']) := by
    rintro (rfl | rfl)
    · rw [show goToLower ([] : List Char) = [] from rfl,
        show parseFloat ([] : List Char) = none from by decide] at hq
      cases hq
    · rw [show goToLower ['-'] = ['-'] from by decide,
        show parseFloat ['-'] = none from by decide] at hq
      cases hq
  unfold parseResourceValue
  rw [if_neg h0, hm, hmi, hgi, hq]
  rfl

theorem parseResourceValue_fail (s : List Char)
    (h1 : parseFloat (goTrimSuffix (goToLower s) ['m']) = none)
    (h2 : parseFloat (goTrimSuffix (goToLower s) ['m', 'i']) = none)
    (h3 : parseFloat (goTrimSuffix (goToLower s) ['g', 'i']) = none)
    (h4 : parseFloat (goToLower s) = none) :
    parseResourceValue s = 0 := by
  unfold parseResourceValue
  split_ifs with h0
  · rfl
  all_goals simp [prvBranches, h1, h2, h3, h4]

/-- C7: the resource value parser satisfies its contract: the empty string
and "-" parse to 0; "150m" to 150, "256Mi" to 256, "1Gi" to 1024 (Gi scaled
by 1024); the parse is invariant under lowercasing (case-insensitive suffix
matching); a string carrying none of the recognized suffixes parses as the
raw float value; and when every branch's number fails to parse the result
is 0 (the parser is total, so no error is ever raised). -/
theorem c7_parser_contract :
    parseResourceValue [] = 0 ∧
    parseResourceValue ['-'] = 0 ∧
    parseResourceValue ('1' :: ['5', '0', 'm']) = 150 ∧
    parseResourceValue ('2' :: ['5', '6', 'M', 'i']) = 256 ∧
    parseResourceValue ('1' :: ['G', 'i']) = 1024 ∧
    (∀ s : List Char, parseResourceValue (goToLower s) = parseResourceValue s) ∧
    (∀ (s : List Char) (q : ℚ),
      goHasSuffix (goToLower s) ['m'] = false →
      goHasSuffix (goToLower s) ['m', 'i'] = false →
      goHasSuffix (goToLower s) ['g', 'i'] = false →
      parseFloat (goToLower s) = some q →
      parseResourceValue s = q) ∧
    (∀ s : List Char,
      parseFloat (goTrimSuffix (goToLower s) ['m']) = none →
      parseFloat (goTrimSuffix (goToLower s) ['m', 'i']) = none →
      parseFloat (goTrimSuffix (goToLower s) ['g', 'i']) = none →
      parseFloat (goToLower s) = none →
      parseResourceValue s = 0) := by
  refine ⟨rfl, rfl, ?_, ?_, ?_, parseResourceValue_toLower, parseResourceValue_raw,
    parseResourceValue_fail⟩
  · norm_num +decide [parseResourceValue, prvBranches, parseFloat, parseTail, parseFracTail,
      parseExpPart, parseSign, goHasSuffix, goToLower, goTrimSuffix, digitsVal, digitVal,
      goIsDigit]
  · norm_num +decide [parseResourceValue, prvBranches, parseFloat, parseTail, parseFracTail,
      parseExpPart, parseSign, goHasSuffix, goToLower, goTrimSuffix, digitsVal, digitVal,
      goIsDigit]
  · norm_num +decide [parseResourceValue, prvBranches, parseFloat, parseTail, parseFracTail,
      parseExpPart, parseSign, goHasSuffix, goToLower, goTrimSuffix, digitsVal, digitVal,
      goIsDigit]

/-- Witness for C7 at the concrete unparsable input "zz". -/
theorem c7_parser_contract_witness : parseResourceValue ('z' :: ['z']) = 0 :=
  c7_parser_contract.2.2.2.2.2.2.2 ('z' :: ['z']) (by decide) (by decide) (by decide) (by decide)

/-! ### Structure of strings accepted by the `parseFloat` model -/

theorem takeWhile_pred (p : Char → Bool) :
    ∀ (l : List Char) (x : Char), x ∈ l.takeWhile p → p x = true := by
  intro l
  induction l with
  | nil =>
    intro x hx
    simp at hx
  | cons c rest ih =>
    intro x hx
    by_cases hc : p c = true
    · rw [List.takeWhile_cons_of_pos hc] at hx
      rcases List.mem_cons.1 hx with rfl | hx2
      · exact hc
      · exact ih x hx2
    · rw [List.takeWhile_cons_of_neg (by simpa using hc)] at hx
      simp at hx

theorem takeWhile_eq_self_of_dropWhile_nil (p : Char → Bool) (l : List Char)
    (h : l.dropWhile p = []) : l.takeWhile p = l := by
  have happ := List.takeWhile_append_dropWhile p l
  rw [h, List.append_nil] at happ
  exact happ

theorem mem_of_getLast?char : ∀ {l : List Char} {a : Char}, l.getLast? = some a → a ∈ l := by
  intro l
  induction l with
  | nil =>
    intro a h
    cases h
  | cons c rest ih =>
    intro a h
    cases rest with
    | nil =>
      rw [List.getLast?_singleton] at h
      rw [← Option.some.inj h]
      exact List.mem_singleton_self c
    | cons d tl =>
      rw [List.getLast?_cons_cons] at h
      exact List.mem_cons_of_mem c (ih h)

theorem getLast?_append_right_char (l1 l2 : List Char) (h : l2 ≠ []) :
    (l1 ++ l2).getLast? = l2.getLast? := by
  induction l1 with
  | nil => rfl
  | cons c rest ih =>
    rw [List.cons_append]
    cases hrl : rest ++ l2 with
    | nil =>
      rcases List.append_eq_nil.1 hrl with ⟨-, h2⟩
      exact absurd h2 h
    | cons d tl =>
      rw [List.getLast?_cons_cons, ← hrl]
      exact ih

theorem getLast?_some_of_ne_nil : ∀ (l : List Char), l ≠ [] → ∃ ch, l.getLast? = some ch := by
  intro l
  induction l with
  | nil =>
    intro h
    exact absurd rfl h
  | cons c rest ih =>
    intro _
    cases rest with
    | nil => exact ⟨c, rfl⟩
    | cons d tl =>
      obtain ⟨ch, hch⟩ := ih (by simp)
      exact ⟨ch, by rw [List.getLast?_cons_cons]; exact hch⟩

theorem parseSign_snd_cases (l : List Char) :
    (parseSign l).2 = l ∨ ∃ c, l = c :: (parseSign l).2 := by
  cases l with
  | nil => exact Or.inl rfl
  | cons c rest =>
    by_cases h1 : c = '-'
    · exact Or.inr ⟨c, by simp [parseSign, h1]⟩
    · by_cases h2 : c = '+'
      · exact Or.inr ⟨c, by simp [parseSign, h1, h2]⟩
      · exact Or.inl (by simp [parseSign, h1, h2])

theorem getLast?_parseSign_snd (l : List Char) (h : (parseSign l).2 ≠ []) :
    l.getLast? = (parseSign l).2.getLast? := by
  rcases parseSign_snd_cases l with he | ⟨c, he⟩
  · rw [he]
  · conv_lhs => rw [he]
    rw [← List.singleton_append, getLast?_append_right_char _ _ h]

theorem parseExpPart_some_last (m q : ℚ) (l : List Char)
    (h : parseExpPart m l = some q) :
    ∃ ch, l.getLast? = some ch ∧ goIsDigit ch = true := by
  unfold parseExpPart at h
  split_ifs at h with hc
  obtain ⟨hne, hnil⟩ := hc
  have htw : (parseSign l).2.takeWhile goIsDigit = (parseSign l).2 :=
    takeWhile_eq_self_of_dropWhile_nil _ _ hnil
  rw [htw] at hne
  obtain ⟨ch, hch⟩ := getLast?_some_of_ne_nil _ hne
  have hmem : ch ∈ (parseSign l).2.takeWhile goIsDigit := by
    rw [htw]
    exact mem_of_getLast?char hch
  exact ⟨ch, by rw [getLast?_parseSign_snd l hne]; exact hch, takeWhile_pred _ _ ch hmem⟩

theorem parseFracTail_some_last (m q : ℚ) (l : List Char)
    (h : parseFracTail m l = some q) :
    l = [] ∨ ∃ ch, l.getLast? = some ch ∧ goIsDigit ch = true := by
  cases l with
  | nil => exact Or.inl rfl
  | cons e r5 =>
    simp only [parseFracTail] at h
    split_ifs at h with he
    obtain ⟨ch, hch, hd⟩ := parseExpPart_some_last _ _ _ h
    have hr5 : r5 ≠ [] := by
      rintro rfl
      cases hch
    refine Or.inr ⟨ch, ?_, hd⟩
    rw [← List.singleton_append, getLast?_append_right_char _ _ hr5]
    exact hch

theorem parseTail_some_last (sgn : ℤ) (ip r : List Char) (q : ℚ)
    (h : parseTail sgn ip r = some q) :
    (r = [] ∧ ip ≠ []) ∨ ∃ ch, r.getLast? = some ch ∧ (goIsDigit ch = true ∨ ch = '.') := by
  cases r with
  | nil =>
    simp only [parseTail] at h
    split_ifs at h with hi
    exact Or.inl ⟨rfl, hi⟩
  | cons c r3 =>
    simp only [parseTail] at h
    split_ifs at h with hdot hguard hexp
    · rcases parseFracTail_some_last _ _ _ h with hnil | ⟨ch, hch, hd⟩
      · have htw : r3.takeWhile goIsDigit = r3 := takeWhile_eq_self_of_dropWhile_nil _ _ hnil
        cases r3 with
        | nil =>
          subst hdot
          exact Or.inr ⟨'.', rfl, Or.inr rfl⟩
        | cons d tl =>
          have hne : d :: tl ≠ ([] : List Char) := by simp
          obtain ⟨ch, hch⟩ := getLast?_some_of_ne_nil _ hne
          have hmem : ch ∈ (d :: tl).takeWhile goIsDigit := by
            rw [htw]
            exact mem_of_getLast?char hch
          refine Or.inr ⟨ch, ?_, Or.inl (takeWhile_pred _ _ ch hmem)⟩
          rw [← List.singleton_append, getLast?_append_right_char _ _ hne]
          exact hch
      · have hdwne : r3.dropWhile goIsDigit ≠ [] := by
          intro hnil2
          rw [hnil2] at hch
          cases hch
        refine Or.inr ⟨ch, ?_, Or.inl hd⟩
        rw [show c :: r3 = (c :: r3.takeWhile goIsDigit) ++ r3.dropWhile goIsDigit from by
              rw [List.cons_append, List.takeWhile_append_dropWhile]]
        rw [getLast?_append_right_char _ _ hdwne]
        exact hch
    · obtain ⟨ch, hch, hd⟩ := parseExpPart_some_last _ _ _ h
      have hr3ne : r3 ≠ [] := by
        rintro rfl
        cases hch
      refine Or.inr ⟨ch, ?_, Or.inl hd⟩
      rw [← List.singleton_append, getLast?_append_right_char _ _ hr3ne]
      exact hch

theorem parseFloat_some_last (l : List Char) (q : ℚ) (h : parseFloat l = some q) :
    ∃ ch, l.getLast? = some ch ∧ (goIsDigit ch = true ∨ ch = '.') := by
  unfold parseFloat at h
  rcases parseTail_some_last _ _ _ _ h with ⟨hr, hip⟩ | ⟨ch, hch, hd⟩
  · have htw : (parseSign l).2.takeWhile goIsDigit = (parseSign l).2 :=
      takeWhile_eq_self_of_dropWhile_nil _ _ hr
    rw [htw] at hip
    obtain ⟨ch, hch⟩ := getLast?_some_of_ne_nil _ hip
    have hmem : ch ∈ (parseSign l).2.takeWhile goIsDigit := by
      rw [htw]
      exact mem_of_getLast?char hch
    refine ⟨ch, ?_, Or.inl (takeWhile_pred _ _ ch hmem)⟩
    rw [getLast?_parseSign_snd l hip]
    exact hch
  · have hdwne : (parseSign l).2.dropWhile goIsDigit ≠ [] := by
      intro hnil
      rw [hnil] at hch
      cases hch
    have hs2ne : (parseSign l).2 ≠ [] := by
      intro hnil
      rw [hnil] at hdwne
      exact hdwne rfl
    refine ⟨ch, ?_, hd⟩
    rw [getLast?_parseSign_snd l hs2ne,
      show (parseSign l).2 =
          (parseSign l).2.takeWhile goIsDigit ++ (parseSign l).2.dropWhile goIsDigit from
        (List.takeWhile_append_dropWhile goIsDigit ((parseSign l).2)).symm,
      getLast?_append_right_char _ _ hdwne]
    exact hch

/-- C10: the parser recognizes only the `m`, `mi`, `gi` suffixes after
lowercasing, so "150M" goes through the millicore branch and parses as 150,
while every string whose lowered form ends in a lowercase letter without
ending in `m`, `mi` or `gi` parses to 0 — in particular the Kubernetes
units "512Ki", "1G" and "2Ti" are silently treated as zero usage. -/
theorem c10_only_m_mi_gi_suffixes :
    (∀ (s : List Char) (ch : Char),
      (goToLower s).getLast? = some ch →
      97 ≤ ch.toNat → ch.toNat ≤ 122 →
      goHasSuffix (goToLower s) ['m'] = false →
      goHasSuffix (goToLower s) ['m', 'i'] = false →
      goHasSuffix (goToLower s) ['g', 'i'] = false →
      parseResourceValue s = 0) ∧
    parseResourceValue ('1' :: ['5', '0', 'M']) = 150 ∧
    parseResourceValue ('5' :: ['1', '2', 'K', 'i']) = 0 ∧
    parseResourceValue ('1' :: ['G']) = 0 ∧
    parseResourceValue ('2' :: ['T', 'i']) = 0 := by
  refine ⟨?_, ?_, ?_, ?_, ?_⟩
  · intro s ch hlast h97 h122 hm hmi hgi
    have hch : ¬(goIsDigit ch = true ∨ ch = '.') := by
      rintro (hd | rfl)
      · have := of_decide_eq_true hd
        omega
      · have h46 : ('.').toNat = 46 := rfl
        omega
    have hpf : parseFloat (goToLower s) = none := by
      cases hpf : parseFloat (goToLower s) with
      | none => rfl
      | some q =>
        obtain ⟨ch2, hch2, hd2⟩ := parseFloat_some_last _ _ hpf
        rw [hlast] at hch2
        rw [← Option.some.inj hch2] at hd2
        exact (hch hd2).elim
    have h0 : ¬(s = [] ∨ s = ['-']) := by
      rintro (rfl | rfl)
      · cases hlast
      · rw [show goToLower ['-'] = ['-'] from by decide] at hlast
        rw [List.getLast?_singleton] at hlast
        rw [← Option.some.inj hlast] at h97
        have h45 : ('-').toNat = 45 := rfl
        omega
    unfold parseResourceValue
    rw [if_neg h0, hm, hmi, hgi, hpf]
    rfl
  · norm_num +decide [parseResourceValue, prvBranches, parseFloat, parseTail, parseFracTail,
      parseExpPart, parseSign, goHasSuffix, goToLower, goTrimSuffix, digitsVal, digitVal,
      goIsDigit]
  · norm_num +decide [parseResourceValue, prvBranches, parseFloat, parseTail, parseFracTail,
      parseExpPart, parseSign, goHasSuffix, goToLower, goTrimSuffix, digitsVal, digitVal,
      goIsDigit]
  · norm_num +decide [parseResourceValue, prvBranches, parseFloat, parseTail, parseFracTail,
      parseExpPart, parseSign, goHasSuffix, goToLower, goTrimSuffix, digitsVal, digitVal,
      goIsDigit]
  · norm_num +decide [parseResourceValue, prvBranches, parseFloat, parseTail, parseFracTail,
      parseExpPart, parseSign, goHasSuffix, goToLower, goTrimSuffix, digitsVal, digitVal,
      goIsDigit]

/-- Witness for C10 at the concrete input "4Ki". -/
theorem c10_only_m_mi_gi_suffixes_witness : parseResourceValue ('4' :: ['K', 'i']) = 0 := by
  refine c10_only_m_mi_gi_suffixes.1 ('4' :: ['K', 'i']) 'i' ?_ ?_ ?_ ?_ ?_ ?_ <;> decide

/-! ### Health score, optimization score, per-pod analysis (C5, C6, C9) -/

theorem ite_neg_zero_eq_max (q : ℚ) : (if q < 0 then 0 else q) = max 0 q := by
  split_ifs with h
  · exact (max_eq_left h.le).symm
  · exact (max_eq_right (not_lt.1 h)).symm

theorem analyzeHealthStatus_score_eq (c : OptimizationCriteria) (pod : Pod) :
    (analyzeHealthStatus c pod).HealthScore =
      max 0 (100
        - (if c.HealthThreshold < totalRestartsOf pod
           then ((totalRestartsOf pod - c.HealthThreshold : ℤ) : ℚ) * 10 else 0)
        - (if pod.Ready then 0 else 30)
        - (if pod.Status = "Running".data then 0 else 40)) := by
  unfold analyzeHealthStatus
  exact ite_neg_zero_eq_max _

theorem healthScore_bounds (c : OptimizationCriteria) (pod : Pod) :
    0 ≤ (analyzeHealthStatus c pod).HealthScore ∧
    (analyzeHealthStatus c pod).HealthScore ≤ 100 := by
  rw [analyzeHealthStatus_score_eq]
  refine ⟨le_max_left 0 _, ?_⟩
  have h1 : (0:ℚ) ≤ (if c.HealthThreshold < totalRestartsOf pod
      then ((totalRestartsOf pod - c.HealthThreshold : ℤ) : ℚ) * 10 else 0) := by
    split_ifs with h
    · exact mul_nonneg (by exact_mod_cast Int.sub_nonneg.2 h.le) (by norm_num)
    · exact le_refl 0
  have h2 : (0:ℚ) ≤ (if pod.Ready then 0 else 30) := by split_ifs <;> norm_num
  have h3 : (0:ℚ) ≤ (if pod.Status = "Running".data then 0 else 40) := by
    split_ifs <;> norm_num
  exact max_le (by norm_num) (by linarith)

/-- The Pod of the spec scenario "restartCount=8, healthThreshold=5": ready,
Running, one container with 8 restarts. -/
def scenarioPod8 : Pod :=
  { Name := 'p' :: ['o', 'd', '8'], Namespace := 'n' :: ['s'], Status := "Running".data,
    Ready := true,
    Containers := [{ Name := 'a' :: ['p', 'p'], Image := 'i' :: ['m', 'g'],
                     Status := "Running".data, Ready := true, Restart := 8 }] }

/-- A resource usage snapshot with 50% CPU and memory utilization (both
dimensions classify OPTIMAL under the initial criteria). -/
def scenarioUsage8 : ResourceUsage :=
  { PodName := 'p' :: ['o', 'd', '8'], Namespace := 'n' :: ['s'],
    CPU := { Current := '5' :: ['0', 'm'], Percentage := 0, Limit := '1' :: ['0', '0', 'm'],
             Request := '5' :: ['0', 'm'] },
    Memory := { Current := '6' :: ['4', 'M', 'i'], Percentage := 0,
                Limit := '1' :: ['2', '8', 'M', 'i'], Request := '6' :: ['4', 'M', 'i'] },
    Disk := { Used := [], Available := [], Total := [] } }

/-- C5: the health analyzer starts at 100, subtracts (restarts − threshold)
× 10 only beyond the threshold, 30 when the Pod is not ready, 40 when its
status is not Running, clamped below at 0; a ready Running Pod with 8 total
restarts under healthThreshold 5 scores 70 and carries exactly one HIGH
issue (HIGH_RESTART_COUNT) for excessive restarts. -/
theorem c5_health_analyzer :
    (∀ (c : OptimizationCriteria) (pod : Pod),
      (analyzeHealthStatus c pod).HealthScore =
        max 0 (100
          - (if c.HealthThreshold < totalRestartsOf pod
             then ((totalRestartsOf pod - c.HealthThreshold : ℤ) : ℚ) * 10 else 0)
          - (if pod.Ready then 0 else 30)
          - (if pod.Status = "Running".data then 0 else 40))) ∧
    (analyzePodCore initialCriteria scenarioPod8
        (Except.ok scenarioUsage8)).HealthStatus.HealthScore = 70 ∧
    (analyzePodCore initialCriteria scenarioPod8 (Except.ok scenarioUsage8)).Issues =
      [{ IssueType := "HIGH_RESTART_COUNT".data, Severity := "HIGH".data }] := by
  refine ⟨analyzeHealthStatus_score_eq, ?_, ?_⟩
  · norm_num +decide [analyzePodCore, analyzeHealthStatus, totalRestartsOf, initialCriteria,
      scenarioPod8]
  · norm_num +decide [analyzePodCore, identifyOptimizationIssues, analyzeResourceUsage,
      analyzeResourceMetric, calculateUtilization, calculateDiskUtilization,
      analyzeHealthStatus, totalRestartsOf, initialCriteria, scenarioPod8, scenarioUsage8,
      parseResourceValue, prvBranches, parseFloat, parseTail, parseFracTail, parseExpPart,
      parseSign, goHasSuffix, goToLower, goTrimSuffix, digitsVal, digitVal, goIsDigit]

theorem foldl_penalty (issues : List OptimizationIssue) : ∀ a : ℚ,
    issues.foldl (fun s issue =>
      if issue.Severity = "HIGH".data then s - 20
      else if issue.Severity = "MEDIUM".data then s - 10
      else if issue.Severity = "LOW".data then s - 5
      else s) a
    = a - 20 * (issues.countP (fun i => i.Severity == "HIGH".data) : ℚ)
        - 10 * (issues.countP (fun i => i.Severity == "MEDIUM".data) : ℚ)
        - 5 * (issues.countP (fun i => i.Severity == "LOW".data) : ℚ) := by
  induction issues with
  | nil =>
    intro a
    simp
  | cons i rest ih =>
    intro a
    by_cases h1 : i.Severity = "HIGH".data
    · have c1 : (i.Severity == "HIGH".data) = true := beq_iff_eq.2 h1
      have c2 : (i.Severity == "MEDIUM".data) = false := by
        rw [beq_eq_false_iff_ne, h1]
        decide
      have c3 : (i.Severity == "LOW".data) = false := by
        rw [beq_eq_false_iff_ne, h1]
        decide
      rw [List.foldl_cons, if_pos h1, ih, List.countP_cons, List.countP_cons, List.countP_cons,
        c1, c2, c3]
      push_cast
      norm_num
      try ring
    · by_cases h2 : i.Severity = "MEDIUM".data
      · have c1 : (i.Severity == "HIGH".data) = false := by
          rw [beq_eq_false_iff_ne, h2]
          decide
        have c2 : (i.Severity == "MEDIUM".data) = true := beq_iff_eq.2 h2
        have c3 : (i.Severity == "LOW".data) = false := by
          rw [beq_eq_false_iff_ne, h2]
          decide
        rw [List.foldl_cons, if_neg h1, if_pos h2, ih, List.countP_cons, List.countP_cons,
          List.countP_cons, c1, c2, c3]
        push_cast
        norm_num
        try ring
      · by_cases h3 : i.Severity = "LOW".data
        · have c1 : (i.Severity == "HIGH".data) = false := by
            rw [beq_eq_false_iff_ne, h3]
            decide
          have c2 : (i.Severity == "MEDIUM".data) = false := by
            rw [beq_eq_false_iff_ne, h3]
            decide
          have c3 : (i.Severity == "LOW".data) = true := beq_iff_eq.2 h3
          rw [List.foldl_cons, if_neg h1, if_neg h2, if_pos h3, ih, List.countP_cons,
            List.countP_cons, List.countP_cons, c1, c2, c3]
          push_cast
          norm_num
          try ring
        · have c1 : (i.Severity == "HIGH".data) = false := beq_eq_false_iff_ne.2 h1
          have c2 : (i.Severity == "MEDIUM".data) = false := beq_eq_false_iff_ne.2 h2
          have c3 : (i.Severity == "LOW".data) = false := beq_eq_false_iff_ne.2 h3
          rw [List.foldl_cons, if_neg h1, if_neg h2, if_neg h3, ih, List.countP_cons,
            List.countP_cons, List.countP_cons, c1, c2, c3]
          push_cast
          norm_num
          try ring

theorem calcScore_eq_max (ra : ResourceAnalysis) (hs : HealthStatus)
    (issues : List OptimizationIssue) :
    calculateOptimizationScore ra hs issues =
      max 0 ((100 - 20 * (issues.countP (fun i => i.Severity == "HIGH".data) : ℚ)
                  - 10 * (issues.countP (fun i => i.Severity == "MEDIUM".data) : ℚ)
                  - 5 * (issues.countP (fun i => i.Severity == "LOW".data) : ℚ)
              + hs.HealthScore) / 2) := by
  unfold calculateOptimizationScore
  rw [foldl_penalty issues 100]
  exact ite_neg_zero_eq_max _

/-- C6: the optimization score equals the issue-penalized base (100 minus 20
per HIGH, 10 per MEDIUM, 5 per LOW issue) averaged with the health score and
clamped below at 0. -/
theorem c6_optimization_score_formula (ra : ResourceAnalysis) (hs : HealthStatus)
    (issues : List OptimizationIssue) :
    calculateOptimizationScore ra hs issues =
      max 0 ((100 - 20 * (issues.countP (fun i => i.Severity == "HIGH".data) : ℚ)
                  - 10 * (issues.countP (fun i => i.Severity == "MEDIUM".data) : ℚ)
                  - 5 * (issues.countP (fun i => i.Severity == "LOW".data) : ℚ)
              + hs.HealthScore) / 2) :=
  calcScore_eq_max ra hs issues

/-- C9: when the metrics fetch fails, `analyzePod` still returns success
(no error), substituting the empty usage snapshot, and the resulting CPU
and MEMORY metrics are classified UNKNOWN, so analysis continues. -/
theorem c9_metrics_unavailable_tolerated (c : OptimizationCriteria) (pod : Pod)
    (msg : List Char) :
    analyzePod c pod (Except.error msg) = Except.ok (analyzePodCore c pod (Except.error msg)) ∧
    (analyzePodCore c pod (Except.error msg)).ResourceAnalysis.CPU.Status = "UNKNOWN".data ∧
    (analyzePodCore c pod (Except.error msg)).ResourceAnalysis.Memory.Status = "UNKNOWN".data := by
  refine ⟨rfl, ?_, ?_⟩ <;>
    simp [analyzePodCore, analyzeResourceUsage, analyzeResourceMetric, emptyUsageFor]

/-! ### The criteria update contract (C3) -/

/-- The request of the spec scenario: only cpuThreshold supplied (value 15). -/
def argsOnlyCpu15 : UpdateCriteriaArgs :=
  { cpuThreshold := some 15, memoryThreshold := none, healthThreshold := none,
    idleThreshold := none }

/-- C3: in the criteria-update handler every omitted field keeps its previous
value and every supplied field takes the supplied value (the health threshold
truncated to an integer); in particular updating with only cpuThreshold=15
leaves the other three fields unchanged. -/
theorem c3_criteria_update_per_field :
    (∀ (prev : OptimizationCriteria) (args : UpdateCriteriaArgs),
      (args.cpuThreshold = none →
        (handlerUpdateCriteria prev args).CPUThreshold = prev.CPUThreshold) ∧
      (∀ v, args.cpuThreshold = some v →
        (handlerUpdateCriteria prev args).CPUThreshold = v) ∧
      (args.memoryThreshold = none →
        (handlerUpdateCriteria prev args).MemoryThreshold = prev.MemoryThreshold) ∧
      (∀ v, args.memoryThreshold = some v →
        (handlerUpdateCriteria prev args).MemoryThreshold = v) ∧
      (args.healthThreshold = none →
        (handlerUpdateCriteria prev args).HealthThreshold = prev.HealthThreshold) ∧
      (∀ v, args.healthThreshold = some v →
        (handlerUpdateCriteria prev args).HealthThreshold = goTruncToInt v) ∧
      (args.idleThreshold = none →
        (handlerUpdateCriteria prev args).IdleThreshold = prev.IdleThreshold) ∧
      (∀ v, args.idleThreshold = some v →
        (handlerUpdateCriteria prev args).IdleThreshold = v)) ∧
    (∀ prev : OptimizationCriteria,
      handlerUpdateCriteria prev argsOnlyCpu15 =
        { CPUThreshold := 15, MemoryThreshold := prev.MemoryThreshold,
          HealthThreshold := prev.HealthThreshold, IdleThreshold := prev.IdleThreshold }) := by
  constructor
  · intro prev args
    exact ⟨fun h => by simp [handlerUpdateCriteria, h],
      fun v h => by simp [handlerUpdateCriteria, h],
      fun h => by simp [handlerUpdateCriteria, h],
      fun v h => by simp [handlerUpdateCriteria, h],
      fun h => by simp [handlerUpdateCriteria, h],
      fun v h => by simp [handlerUpdateCriteria, h],
      fun h => by simp [handlerUpdateCriteria, h],
      fun v h => by simp [handlerUpdateCriteria, h]⟩
  · intro prev
    rfl

/-- Witness for C3: updating the initial criteria with only cpuThreshold=15
gives (15, 30, 5, 5). -/
theorem c3_criteria_update_per_field_witness :
    handlerUpdateCriteria initialCriteria argsOnlyCpu15 =
      { CPUThreshold := 15, MemoryThreshold := 30, HealthThreshold := 5, IdleThreshold := 5 } := by
  rw [c3_criteria_update_per_field.2 initialCriteria]
  rfl

/-! ### Waste aggregation (C4) -/

/-- Modelled from the spec (section 4.6), for comparison with
`analyzeResourceWaste`: the expected (resource type, waste percentage)
pairs — one per OVER_PROVISIONED dimension, CPU before memory for each pod,
in pod order, with wastePercentage = 100 − utilization. -/
def specWasteRecords : List PodOptimization → List (List Char × ℚ)
  | [] => []
  | pa :: rest =>
    ((if pa.ResourceAnalysis.CPU.Status = "OVER_PROVISIONED".data
      then [(("CPU".data : List Char), 100 - pa.ResourceAnalysis.CPU.Utilization)] else []) ++
     (if pa.ResourceAnalysis.Memory.Status = "OVER_PROVISIONED".data
      then [(("MEMORY".data : List Char), 100 - pa.ResourceAnalysis.Memory.Utilization)] else [])) ++
    specWasteRecords rest

theorem collectWaste_spec (c : OptimizationCriteria) (pas : List PodOptimization) :
    (collectWaste c pas).1.map (fun r => (r.ResourceType, r.WastePercentage))
        = specWasteRecords pas ∧
    (collectWaste c pas).2.2.1 + (collectWaste c pas).2.2.2
        = ((specWasteRecords pas).map Prod.snd).sum := by
  induction pas with
  | nil => exact ⟨rfl, by norm_num [collectWaste, specWasteRecords]⟩
  | cons pa rest ih =>
    obtain ⟨ih1, ih2⟩ := ih
    constructor
    · simp only [collectWaste, specWasteRecords, List.map_append, ih1]
      congr 1
      split_ifs <;> simp
    · simp only [collectWaste, specWasteRecords, List.map_append, List.sum_append]
      split_ifs <;> simp <;> linarith [ih2]

/-- The three PodOptimization values of the spec scenario: two pods
over-provisioned on CPU with utilizations 5% and 10%, one optimal pod;
memory is OPTIMAL at 50% everywhere. -/
def wasteScenarioPod (nm : List Char) (cpuStatus : List Char) (cpuUtil : ℚ) : PodOptimization :=
  { PodName := nm, Namespace := 'n' :: ['s'], Status := "Running".data,
    OptimizationScore := 0, Issues := [],
    ResourceAnalysis :=
      { CPU := { Current := [], Request := [], Limit := [], Utilization := cpuUtil,
                 Status := cpuStatus },
        Memory := { Current := [], Request := [], Limit := [], Utilization := 50,
                    Status := "OPTIMAL".data },
        Disk := { Current := [], Request := [], Limit := [], Utilization := 0,
                  Status := "OPTIMAL".data } },
    HealthStatus := { Ready := true, RestartCount := 0, HealthScore := 100 } }

def scenarioWastePods : List PodOptimization :=
  [wasteScenarioPod ('p' :: ['1']) ("OVER_PROVISIONED".data) 5,
   wasteScenarioPod ('p' :: ['2']) ("OVER_PROVISIONED".data) 10,
   wasteScenarioPod ('p' :: ['3']) ("OPTIMAL".data) 50]

/-- C4: the waste aggregator emits one record per OVER_PROVISIONED dimension
(CPU and MEMORY independently) carrying wastePercentage = 100 − utilization,
and the aggregate WastePercentage is the sum of all waste percentages
divided by 2 × the number of over-provisioned records (0 with no records);
in the 2-of-3-pods scenario with CPU utilizations 5% and 10% the records
carry 95 and 90 and the average is 185/4 = 46.25. -/
theorem c4_waste_aggregation :
    (∀ (c : OptimizationCriteria) (pas : List PodOptimization),
      (analyzeResourceWaste c pas).OverProvisionedPods.map
          (fun r => (r.ResourceType, r.WastePercentage)) = specWasteRecords pas ∧
      (analyzeResourceWaste c pas).TotalWastage.WastePercentage =
        (if 0 < (specWasteRecords pas).length
         then ((specWasteRecords pas).map Prod.snd).sum / (2 * ((specWasteRecords pas).length : ℚ))
         else 0)) ∧
    (analyzeResourceWaste initialCriteria scenarioWastePods).OverProvisionedPods.map
        (fun r => r.WastePercentage) = [95, 90] ∧
    (analyzeResourceWaste initialCriteria scenarioWastePods).TotalWastage.WastePercentage
        = 185 / 4 := by
  refine ⟨?_, ?_, ?_⟩
  · intro c pas
    obtain ⟨h1, h2⟩ := collectWaste_spec c pas
    have hlen : (collectWaste c pas).1.length = (specWasteRecords pas).length := by
      rw [← h1, List.length_map]
    refine ⟨h1, ?_⟩
    show (if 0 < (collectWaste c pas).1.length
        then ((collectWaste c pas).2.2.1 + (collectWaste c pas).2.2.2)
          / (((collectWaste c pas).1.length : ℚ) * 2)
        else 0) = _
    rw [hlen, h2]
    split_ifs with hp
    · rw [mul_comm]
    · rfl
  · norm_num +decide [analyzeResourceWaste, collectWaste, scenarioWastePods, wasteScenarioPod,
      initialCriteria]
  · norm_num +decide [analyzeResourceWaste, collectWaste, scenarioWastePods, wasteScenarioPod,
      initialCriteria]

/-! ### Score bounds (C8) -/

theorem optScore_bounds (ra : ResourceAnalysis) (hs : HealthStatus)
    (issues : List OptimizationIssue) (h0 : 0 ≤ hs.HealthScore) (h100 : hs.HealthScore ≤ 100) :
    0 ≤ calculateOptimizationScore ra hs issues ∧
    calculateOptimizationScore ra hs issues ≤ 100 := by
  rw [calcScore_eq_max]
  refine ⟨le_max_left 0 _, ?_⟩
  have c1 : (0:ℚ) ≤ (issues.countP (fun i => i.Severity == "HIGH".data) : ℚ) := Nat.cast_nonneg _
  have c2 : (0:ℚ) ≤ (issues.countP (fun i => i.Severity == "MEDIUM".data) : ℚ) := Nat.cast_nonneg _
  have c3 : (0:ℚ) ≤ (issues.countP (fun i => i.Severity == "LOW".data) : ℚ) := Nat.cast_nonneg _
  apply max_le (by norm_num)
  linarith

theorem analyzePodCore_score_bounds (c : OptimizationCriteria) (pod : Pod)
    (fetch : Except (List Char) ResourceUsage) :
    0 ≤ (analyzePodCore c pod fetch).OptimizationScore ∧
    (analyzePodCore c pod fetch).OptimizationScore ≤ 100 := by
  have hh := healthScore_bounds c pod
  have h := optScore_bounds
    (analyzeResourceUsage c (match fetch with
      | Except.ok u => u
      | Except.error _ => emptyUsageFor pod))
    (analyzeHealthStatus c pod)
    (identifyOptimizationIssues c
      (analyzeResourceUsage c (match fetch with
        | Except.ok u => u
        | Except.error _ => emptyUsageFor pod))
      (analyzeHealthStatus c pod) pod)
    hh.1 hh.2
  exact h

theorem report_podAnalysis_eq (c : OptimizationCriteria)
    (inputs : List (Pod × Except (List Char) ResourceUsage)) : ∀ acc : List PodOptimization,
    inputs.foldl (fun acc pf =>
      match analyzePod c pf.1 pf.2 with
      | Except.ok podOpt => acc ++ [podOpt]
      | Except.error _ => acc) acc
    = acc ++ inputs.map (fun pf => analyzePodCore c pf.1 pf.2) := by
  induction inputs with
  | nil =>
    intro acc
    simp
  | cons pf rest ih =>
    intro acc
    rw [List.foldl_cons]
    show List.foldl _ (acc ++ [analyzePodCore c pf.1 pf.2]) rest = _
    rw [ih]
    simp

theorem foldl_add_score_bounds (pas : List PodOptimization)
    (h : ∀ pa ∈ pas, 0 ≤ pa.OptimizationScore ∧ pa.OptimizationScore ≤ 100) :
    ∀ a : ℚ, a ≤ pas.foldl (fun x pa => x + pa.OptimizationScore) a ∧
      pas.foldl (fun x pa => x + pa.OptimizationScore) a ≤ a + 100 * pas.length := by
  induction pas with
  | nil =>
    intro a
    simp
  | cons pa rest ih =>
    intro a
    have hpa := h pa (List.mem_cons_self pa rest)
    have hrest := ih fun x hx => h x (List.mem_cons_of_mem pa hx)
    obtain ⟨l1, l2⟩ := hrest (a + pa.OptimizationScore)
    simp only [List.foldl_cons, List.length_cons]
    push_cast
    constructor
    · linarith [hpa.1]
    · linarith [hpa.2]

theorem generateSummary_overall_bounds (pas : List PodOptimization)
    (rwa : ResourceWasteAnalysis)
    (h : ∀ pa ∈ pas, 0 ≤ pa.OptimizationScore ∧ pa.OptimizationScore ≤ 100) :
    0 ≤ (generateSummary pas rwa).OverallScore ∧ (generateSummary pas rwa).OverallScore ≤ 100 := by
  have hov : (generateSummary pas rwa).OverallScore =
      (if 0 < pas.length
       then (pas.foldl (fun a pa => a + pa.OptimizationScore) 0) / (pas.length : ℚ)
       else 0) := rfl
  rw [hov]
  split_ifs with hp
  · obtain ⟨l1, l2⟩ := foldl_add_score_bounds pas h 0
    have hlp : (0:ℚ) < (pas.length : ℚ) := by exact_mod_cast hp
    constructor
    · exact div_nonneg (by linarith) hlp.le
    · rw [div_le_iff hlp]
      linarith
  · norm_num

/-- C8: for every criteria, pod and fetch result the derived health score
and per-Pod optimization score lie in [0, 100], and the report summary
overall score (mean of the per-Pod scores, 0 with no pods) lies in
[0, 100]. -/
theorem c8_scores_in_range :
    (∀ (c : OptimizationCriteria) (pod : Pod) (fetch : Except (List Char) ResourceUsage),
      0 ≤ (analyzePodCore c pod fetch).HealthStatus.HealthScore ∧
      (analyzePodCore c pod fetch).HealthStatus.HealthScore ≤ 100 ∧
      0 ≤ (analyzePodCore c pod fetch).OptimizationScore ∧
      (analyzePodCore c pod fetch).OptimizationScore ≤ 100) ∧
    (∀ (c : OptimizationCriteria) (ns : List Char)
        (inputs : List (Pod × Except (List Char) ResourceUsage)),
      0 ≤ (generateOptimizationReport c ns inputs).Summary.OverallScore ∧
      (generateOptimizationReport c ns inputs).Summary.OverallScore ≤ 100) := by
  constructor
  · intro c pod fetch
    have hh := healthScore_bounds c pod
    have hs := analyzePodCore_score_bounds c pod fetch
    exact ⟨hh.1, hh.2, hs.1, hs.2⟩
  · intro c ns inputs
    have hb : ∀ pa ∈ inputs.foldl (fun acc pf =>
        match analyzePod c pf.1 pf.2 with
        | Except.ok podOpt => acc ++ [podOpt]
        | Except.error _ => acc) ([] : List PodOptimization),
        0 ≤ pa.OptimizationScore ∧ pa.OptimizationScore ≤ 100 := by
      intro pa hpa
      rw [report_podAnalysis_eq c inputs []] at hpa
      simp only [List.nil_append, List.mem_map] at hpa
      obtain ⟨pf, hmem, rfl⟩ := hpa
      exact analyzePodCore_score_bounds c pf.1 pf.2
    exact generateSummary_overall_bounds _ _ hb

end Mcp
